import Mathlib

/-!
Verification of the RISC-V TAIC user-interrupt subsystem.

Shallow embedding of `arch/riscv/kernel/uintr.c` and
`drivers/irqchip/irq-riscv-taic.c`: the controller registration loop, the
receiver ownership protocol (`taic_ulq_write_cpuid`, `taic_free_lq`) and the
context synchronization routines (`uintr_enable`, `uintr_set`, `uintr_clear`).

Machine integers are modelled as `Nat`; the C shifts and masks are kept
explicit (`>>> 32`, `&&& 0xffffffff`), and `~0UL` is `2 ^ 64 - 1`.
Hardware register writes are recorded as explicit `(byte offset, value)`
events so that ordering and write counts are observable.
-/

set_option autoImplicit false

namespace Taic

/-! ## Constants from the source -/

/-- The constant `LQ_OFFSET` (0x1000) of irq-riscv-taic.c. -/
def LQ_OFFSET : Nat := 0x1000

/-- The constant `LQ_SIZE` (0x1000) of irq-riscv-taic.c. -/
def LQ_SIZE : Nat := 0x1000

/-- The constant `DEFAULT_GQ_NUM` (4) of irq-riscv-taic.c. -/
def DEFAULT_GQ_NUM : Nat := 4

/-- The constant `DEFAULT_LQ_NUM` (8) of irq-riscv-taic.c. -/
def DEFAULT_LQ_NUM : Nat := 8

/-- RISC-V user-software-interrupt enable bit `IE_USIE` (bit 0 of
`uie`/`uip`/`sideleg`). -/
def IE_USIE : Nat := 1

/-- The value `~0UL` on a 64-bit machine: the all-ones "nowhere" sentinel. -/
def UINTR_SENTINEL : Nat := 2 ^ 64 - 1

/-- The errno value `-EINVAL`. -/
def ENEG_EINVAL : Int := -22

/-- The errno value `-EIO`. -/
def ENEG_EIO_ERR : Int := -5

/-- The errno value `-ENOMEM`. -/
def ENEG_ENOMEM : Int := -12

/-! ## Data model -/

/-- The fields of `struct thread_struct` used by uintr.c:
`is_uintr_enabled` and `lq_idx` (a `u64`). -/
structure ThreadStruct where
  is_uintr_enabled : Bool
  lq_idx : Nat
  deriving Repr, DecidableEq

/-- The saved user-interrupt registers of `struct pt_regs` read by
`uintr_set`. -/
structure PtRegs where
  uie : Nat
  uepc : Nat
  utvec : Nat
  uscratch : Nat
  uip : Nat
  deriving Repr, DecidableEq

/-- The architectural CSRs touched by uintr.c. -/
structure Csrs where
  sideleg : Nat
  uie : Nat
  uepc : Nat
  utvec : Nat
  uscratch : Nat
  uip : Nat
  deriving Repr, DecidableEq

/-- Names for the CSRs, used to record write events. -/
inductive CsrName
  | sideleg
  | uie
  | uepc
  | utvec
  | uscratch
  | uip
  deriving Repr, DecidableEq

/-- One observable action of the synchronization code: a CSR bit-set
(`csr_set`), a CSR bit-clear (`csr_clear`), a full CSR write (`csr_write`),
or a 64-bit store into the controller window (`writeq`) at a byte offset. -/
inductive Event
  | csrSetBits (c : CsrName) (mask : Nat)
  | csrClearBits (c : CsrName) (mask : Nat)
  | csrWrite (c : CsrName) (v : Nat)
  | hwWrite (off : Nat) (v : Nat)
  deriving Repr, DecidableEq

/-- The hardware writes among a list of events, as (offset, value) pairs. -/
def hwWrites : List Event → List (Nat × Nat)
  | [] => []
  | .hwWrite o v :: es => (o, v) :: hwWrites es
  | _ :: es => hwWrites es

/-- The invoking core's slot of the per-cpu `taic_uhandlers` table, with the
`lq_num` capacity of the bound instance (`handler->priv->lq_num`). -/
structure TaicHandler where
  present : Bool
  lq_num : Nat
  deriving Repr, DecidableEq

/-- The controller's memory-mapped register window, byte offset to `u64`. -/
def HwMem : Type := Nat → Nat

/-- Store `writeq(v, base + o)`. -/
def writeMem (m : HwMem) (o v : Nat) : HwMem :=
  fun x => if x = o then v else m x

/-- Apply a list of register writes in order. -/
def applyWrites (m : HwMem) : List (Nat × Nat) → HwMem
  | [] => m
  | (o, v) :: ws => applyWrites (writeMem m o v) ws

/-- Effect of `csr_set` on a 64-bit CSR value: or in the mask. -/
def csr_set_v (v mask : Nat) : Nat := v ||| mask

/-- Effect of `csr_clear` on a 64-bit CSR value: clear the mask bits. -/
def csr_clear_v (v mask : Nat) : Nat := v &&& (UINTR_SENTINEL ^^^ mask)

/-! ## Receiver ownership protocol (irq-riscv-taic.c) -/

/-- The byte offset computed by `taic_ulq_write_cpuid`:
`LQ_OFFSET + (idx_high * lq_num + idx_low) * LQ_SIZE + 0x38` with
`idx_high = lq_idx >> 32` and `idx_low = lq_idx & 0xffffffff`. -/
def taic_ulq_offset (lq_num lq_idx : Nat) : Nat :=
  LQ_OFFSET + ((lq_idx >>> 32) * lq_num + (lq_idx &&& 0xffffffff)) * LQ_SIZE + 0x38

/-- Function `taic_ulq_write_cpuid(lq_idx, hartid)`: fails with `-EINVAL` when the
invoking core's user handler slot is absent, otherwise performs the single
`writeq(hartid, reg)` at the computed slot-ownership offset and returns 0. -/
def taic_ulq_write_cpuid (h : TaicHandler) (lq_idx hartid : Nat) :
    Int × List (Nat × Nat) :=
  if !h.present then (ENEG_EINVAL, [])
  else (0, [(taic_ulq_offset h.lq_num lq_idx, hartid)])

/-- Function `taic_free_lq(lq_idx)`: fails with `-EINVAL` when the invoking core's
user handler slot is absent, otherwise writes the slot index to the fixed
release register at offset 0x8 and returns 0. -/
def taic_free_lq (h : TaicHandler) (lq_idx : Nat) : Int × List (Nat × Nat) :=
  if !h.present then (ENEG_EINVAL, [])
  else (0, [(0x8, lq_idx)])

/-! ## Context synchronization (uintr.c) -/

/-- Syscall `sys_uintr_enable(lq_idx)`: if already enabled return 0 without change,
otherwise record the queue index, set the enabled flag and return 0. -/
def uintr_enable (t : ThreadStruct) (lq_idx : Nat) : ThreadStruct × Int :=
  if t.is_uintr_enabled then (t, 0)
  else ({ is_uintr_enabled := true, lq_idx := lq_idx }, 0)

/-- Function `uintr_clear(regs)`: no-op when disabled; when enabled, publish the
all-ones sentinel to the bound slot's ownership register. The thread state
is returned unchanged (the C function never writes it). -/
def uintr_clear (t : ThreadStruct) (h : TaicHandler) :
    ThreadStruct × List (Nat × Nat) :=
  if !t.is_uintr_enabled then (t, [])
  else (t, (taic_ulq_write_cpuid h t.lq_idx UINTR_SENTINEL).2)

/-- Function `uintr_set(regs)`, as a function of the thread, the invoking core's
handler slot, `hartid = smp_processor_id()`, the saved registers and the
current CSR state. Returns the new CSR state together with the ordered list
of events the function performs:
`csr_set(CSR_SIDELEG, IE_USIE)` first, unconditionally; if disabled,
`csr_clear` of `uie` and `uip`; if enabled, the ownership publish (via
`taic_ulq_write_cpuid`, whose return value is discarded) followed by the
restore of `uie`, `uepc`, `utvec`, `uscratch` and the merged `uip` write
`regs->uip | csr_read(CSR_UIP)`. -/
def uintr_set (t : ThreadStruct) (h : TaicHandler) (hartid : Nat)
    (regs : PtRegs) (c0 : Csrs) : Csrs × List Event :=
  let c1 : Csrs := { c0 with sideleg := csr_set_v c0.sideleg IE_USIE }
  let e1 : List Event := [.csrSetBits .sideleg IE_USIE]
  if !t.is_uintr_enabled then
    ({ c1 with uie := csr_clear_v c1.uie IE_USIE,
               uip := csr_clear_v c1.uip IE_USIE },
     e1 ++ [.csrClearBits .uie IE_USIE, .csrClearBits .uip IE_USIE])
  else
    let pub := taic_ulq_write_cpuid h t.lq_idx hartid
    let uipLatched := c1.uip
    ({ c1 with uie := regs.uie, uepc := regs.uepc, utvec := regs.utvec,
               uscratch := regs.uscratch,
               uip := regs.uip ||| uipLatched },
     e1 ++ pub.2.map (fun p => Event.hwWrite p.1 p.2) ++
       [.csrWrite .uie regs.uie, .csrWrite .uepc regs.uepc,
        .csrWrite .utvec regs.utvec, .csrWrite .uscratch regs.uscratch,
        .csrWrite .uip (regs.uip ||| uipLatched)])

/-! ## Controller registration (`__taic_init`) -/

/-- The value `parent.args[0]` of one interrupt-routing entry: user-software,
supervisor-software, or anything else. -/
inductive Cause
  | usoft
  | ssoft
  | other
  deriving Repr, DecidableEq

/-- One interrupt-routing entry of the platform node, with the outcomes of
the three parsing calls made on it by the loop body of `__taic_init`:
`of_irq_parse_one`, `riscv_of_parent_hartid` and `riscv_hartid_to_cpuid`. -/
structure IrqEntry where
  parseOk : Bool
  cause : Cause
  hartidOk : Bool
  cpuValid : Bool
  cpu : Nat
  deriving Repr, DecidableEq

/-- One per-cpu handler slot (`struct taic_handler`): a present flag and a
reference to the owning controller instance, modelled by its identifier. -/
structure TaicSlot where
  present : Bool
  priv : Nat
  deriving Repr, DecidableEq

/-- The diagnostics `__taic_init`'s loop prints (`pr_err`/`pr_warn`), tagged
with the entry index. -/
inductive LogMsg
  | parseFail (i : Nat)
  | hartidFail (i : Nat)
  | cpuInvalid (i : Nat)
  | conflict (i : Nat)
  deriving Repr, DecidableEq

/-- The state the registration loop mutates: the two per-cpu handler tables
(`taic_uhandlers`, `taic_shandlers`), the instance's two core-membership
masks (`umask`, `smask`), and the log. -/
structure RegState where
  uTable : Nat → TaicSlot
  sTable : Nat → TaicSlot
  umask : Nat → Bool
  smask : Nat → Bool
  log : List LogMsg

/-- The loop body of `__taic_init` for entry `e` at index `i`, claiming
slots for instance `inst`: skip unparsable entries, entries with a cause
other than `IRQ_U_SOFT`/`IRQ_S_SOFT`, unknown harts and invalid cpus; set
the instance's cpumask bit; then, if the target slot is already present,
log the conflict and leave the slot untouched, else claim it. -/
def taic_handle_entry (inst : Nat) (st : RegState) (i : Nat) (e : IrqEntry) :
    RegState :=
  if !e.parseOk then { st with log := st.log ++ [.parseFail i] }
  else if e.cause = Cause.other then st
  else if !e.hartidOk then { st with log := st.log ++ [.hartidFail i] }
  else if !e.cpuValid then { st with log := st.log ++ [.cpuInvalid i] }
  else
    match e.cause with
    | .usoft =>
      let st' := { st with umask := fun c => if c = e.cpu then true else st.umask c }
      if (st'.uTable e.cpu).present then
        { st' with log := st'.log ++ [.conflict i] }
      else
        { st' with uTable := fun c =>
            if c = e.cpu then ⟨true, inst⟩ else st'.uTable c }
    | _ =>
      let st' := { st with smask := fun c => if c = e.cpu then true else st.smask c }
      if (st'.sTable e.cpu).present then
        { st' with log := st'.log ++ [.conflict i] }
      else
        { st' with sTable := fun c =>
            if c = e.cpu then ⟨true, inst⟩ else st'.sTable c }

/-- The `for (i = 0; i < nr_contexts; i++)` loop over the routing entries,
starting at index `i`. -/
def taic_handle_entries (inst : Nat) (st : RegState) (i : Nat) :
    List IrqEntry → RegState
  | [] => st
  | e :: es => taic_handle_entries inst (taic_handle_entry inst st i e) (i + 1) es

/-- The inputs of one `__taic_init` call: outcomes of the allocation, the
resource lookup and the mapping, the two optional capacity properties, and
the routing entries (`of_irq_count` is their number). -/
structure InitInput where
  allocOk : Bool
  resourceOk : Bool
  ioremapOk : Bool
  gqProp : Option Nat
  lqProp : Option Nat
  entries : List IrqEntry
  deriving Repr, DecidableEq

/-- The outcome of `__taic_init`: the return value, the registration state,
and the instance if it survives (capacities filled in, `none` when the
error paths freed the allocation and unmapped the window). -/
structure InitResult where
  ret : Int
  st : RegState
  inst : Option (Nat × Nat)

/-- Function `__taic_init`: allocate, map the register window, read `gq-num` and
`lq-num` falling back to the defaults, fail with `-EINVAL` if the node has
no routing entries, otherwise run the claiming loop and return 0. -/
def taic_init (instId : Nat) (inp : InitInput) (st : RegState) : InitResult :=
  if !inp.allocOk then ⟨ENEG_ENOMEM, st, none⟩
  else if !inp.resourceOk then ⟨ENEG_EIO_ERR, st, none⟩
  else if !inp.ioremapOk then ⟨ENEG_EIO_ERR, st, none⟩
  else
    let gq := inp.gqProp.getD DEFAULT_GQ_NUM
    let lq := inp.lqProp.getD DEFAULT_LQ_NUM
    if inp.entries.length = 0 then ⟨ENEG_EINVAL, st, none⟩
    else ⟨0, taic_handle_entries instId st 0 inp.entries, some (gq, lq)⟩

/-! ## The synchronization state machine

One receiver-enabled execution context observed across trap boundaries:
`enable` runs as a syscall (privileged mode), `set` fires on trap exit and
moves the context to user mode on the invoking core, `clear` fires on trap
entry and moves it back to privileged mode. `hart` is the core currently
executing the context, chosen afresh at each trap exit (migration). -/

/-- Whether the context is resident in user mode or in privileged mode. -/
inductive Mode
  | user
  | kern
  deriving Repr, DecidableEq

/-- The state of the model: the thread record, the residency mode, the core
currently executing the context, the CSRs and the controller window. -/
structure SysState where
  thread : ThreadStruct
  mode : Mode
  hart : Nat
  csrs : Csrs
  mem : HwMem

/-- The byte offset of the ownership register of the slot bound to `t`. -/
def boundOffset (h : TaicHandler) (t : ThreadStruct) : Nat :=
  taic_ulq_offset h.lq_num t.lq_idx

/-- Effect of `sys_uintr_enable` on the model state. -/
def stepEnable (s : SysState) (i : Nat) : SysState :=
  { s with thread := (uintr_enable s.thread i).1 }

/-- Effect of trap exit (`uintr_set`) on the model state: the context
resumes in user mode on core `hartid`; the CSRs and the controller window
are updated by the events the routine performs. -/
def stepSet (h : TaicHandler) (s : SysState) (hartid : Nat) (regs : PtRegs) :
    SysState :=
  let r := uintr_set s.thread h hartid regs s.csrs
  { thread := s.thread, mode := Mode.user, hart := hartid, csrs := r.1,
    mem := applyWrites s.mem (hwWrites r.2) }

/-- Effect of trap entry (`uintr_clear`) on the model state: the context
leaves user mode; the controller window is updated by the writes the
routine performs. -/
def stepClear (h : TaicHandler) (s : SysState) : SysState :=
  { s with mode := Mode.kern,
           mem := applyWrites s.mem (uintr_clear s.thread h).2 }

/-- One step of the machine: `enable` and `set` run in privileged mode,
`clear` runs on the way out of user mode. -/
inductive Step (h : TaicHandler) : SysState → SysState → Prop
  | enable (s : SysState) (i : Nat) (hm : s.mode = Mode.kern) :
      Step h s (stepEnable s i)
  | set (s : SysState) (hartid : Nat) (regs : PtRegs)
      (hm : s.mode = Mode.kern) :
      Step h s (stepSet h s hartid regs)
  | clear (s : SysState) (hm : s.mode = Mode.user) :
      Step h s (stepClear h s)

/-- The initial state: interrupt delivery disabled, context in privileged
mode, every ownership register holding the "nowhere" sentinel (reset). -/
def initState (c : Csrs) : SysState :=
  { thread := ⟨false, 0⟩, mode := Mode.kern, hart := 0, csrs := c,
    mem := fun _ => UINTR_SENTINEL }

/-- Reachability by `enable` / `set` / `clear` sequences. -/
def Reachable (h : TaicHandler) (c : Csrs) (s : SysState) : Prop :=
  Relation.ReflTransGen (Step h) (initState c) s

/-- The inductive invariant: while disabled the window is untouched (all
sentinels); while enabled the bound slot's ownership register holds the
executing core in user mode and the sentinel in privileged mode. -/
def OwnerInv (h : TaicHandler) (s : SysState) : Prop :=
  if s.thread.is_uintr_enabled then
    (s.mode = Mode.user → s.mem (boundOffset h s.thread) = s.hart) ∧
    (s.mode = Mode.kern → s.mem (boundOffset h s.thread) = UINTR_SENTINEL)
  else ∀ o, s.mem o = UINTR_SENTINEL

/-! ## Helper lemmas -/

/-- Clearing a 64-bit mask from a CSR value leaves the mask bits zero. -/
theorem csr_clear_v_and_eq_zero (v m : Nat) (hm : m < 2 ^ 64) :
    csr_clear_v v m &&& m = 0 := by
  unfold csr_clear_v
  rw [Nat.land_assoc]
  have hx : (UINTR_SENTINEL ^^^ m) &&& m = 0 := by
    apply Nat.eq_of_testBit_eq
    intro i
    simp only [Nat.testBit_land, Nat.testBit_xor, Nat.zero_testBit]
    by_cases hi : i < 64
    · have hS : UINTR_SENTINEL.testBit i = true := by
        unfold UINTR_SENTINEL
        rw [Nat.testBit_two_pow_sub_one]
        simp [hi]
      cases hmi : m.testBit i <;> simp [hS, hmi]
    · have hmi : m.testBit i = false :=
        Nat.testBit_lt_two_pow
          (lt_of_lt_of_le hm (Nat.pow_le_pow_right (by norm_num) (le_of_not_lt hi)))
      simp [hmi]
  rw [hx, Nat.and_zero]

/-- Writing the same value twice to the same offset is the same as once. -/
theorem writeMem_idem (m : HwMem) (o v : Nat) :
    writeMem (writeMem m o v) o v = writeMem m o v := by
  funext x
  unfold writeMem
  by_cases hx : x = o <;> simp [hx]

/-! ## Claim theorems -/

/-- C2: the byte offset of the slot-ownership register computed by the
publish operation equals
`LQ_OFFSET + (idx_high * lq_num + idx_low) * LQ_SIZE + 0x38` with
`LQ_OFFSET = 0x1000`, `LQ_SIZE = 0x1000`, where `idx_high` is the high half
`idx / 2^32` and `idx_low` the low half `idx % 2^32` of the index split at
bit 32. -/
theorem taic_ulq_offset_formula (lq_num idx : Nat) :
    taic_ulq_offset lq_num idx =
      0x1000 + (idx / 2 ^ 32 * lq_num + idx % 2 ^ 32) * 0x1000 + 0x38 := by
  unfold taic_ulq_offset LQ_OFFSET LQ_SIZE
  rw [Nat.shiftRight_eq_div_pow]
  have hmask : (0xffffffff : Nat) = 2 ^ 32 - 1 := by norm_num
  rw [hmask, Nat.and_pow_two_sub_one_eq_mod]

/-- C4: `uintr_enable` is idempotent and always returns success: a second
call with the same index leaves the thread state of the first call
unchanged, and both calls return 0. -/
theorem uintr_enable_idempotent (t : ThreadStruct) (i : Nat) :
    (uintr_enable (uintr_enable t i).1 i).1 = (uintr_enable t i).1 ∧
    (uintr_enable t i).2 = 0 ∧
    (uintr_enable (uintr_enable t i).1 i).2 = 0 := by
  unfold uintr_enable
  cases ht : t.is_uintr_enabled <;> simp [ht]

/-- C9: once enabled, a second `uintr_enable` call with a different queue
index returns 0 and changes no field of the thread: the stored queue index
stays at the value recorded by the first call. -/
theorem uintr_enable_second_call_noop (t0 : ThreadStruct) (i j : Nat)
    (hd : t0.is_uintr_enabled = false) :
    (uintr_enable (uintr_enable t0 i).1 j).1 = (uintr_enable t0 i).1 ∧
    (uintr_enable (uintr_enable t0 i).1 j).2 = 0 ∧
    (uintr_enable t0 i).1.lq_idx = i := by
  unfold uintr_enable
  simp [hd]

/-- Witness for C9 at `t0 = ⟨false, 0⟩`, `i = 3`, `j = 5`. -/
theorem uintr_enable_second_call_noop_witness :
    (uintr_enable (uintr_enable ⟨false, 0⟩ 3).1 5).1 = (uintr_enable ⟨false, 0⟩ 3).1 ∧
    (uintr_enable (uintr_enable ⟨false, 0⟩ 3).1 5).2 = 0 ∧
    (uintr_enable ⟨false, 0⟩ 3).1.lq_idx = 3 :=
  uintr_enable_second_call_noop ⟨false, 0⟩ 3 5 rfl

/-- C6: `taic_ulq_write_cpuid` and `taic_free_lq` return a negative status
iff the invoking core's user handler slot is absent; in the error case they
write no register, and otherwise they perform exactly one register write
and return 0. -/
theorem taic_publish_release_status (h : TaicHandler) (idx hartid : Nat) :
    ((taic_ulq_write_cpuid h idx hartid).1 < 0 ↔ h.present = false) ∧
    ((taic_free_lq h idx).1 < 0 ↔ h.present = false) ∧
    (h.present = false →
      (taic_ulq_write_cpuid h idx hartid).2 = [] ∧ (taic_free_lq h idx).2 = []) ∧
    (h.present = true →
      (taic_ulq_write_cpuid h idx hartid).1 = 0 ∧
      (taic_ulq_write_cpuid h idx hartid).2.length = 1 ∧
      (taic_free_lq h idx).1 = 0 ∧ (taic_free_lq h idx).2.length = 1) := by
  unfold taic_ulq_write_cpuid taic_free_lq ENEG_EINVAL
  cases hp : h.present <;> simp [hp]

/-- Witness for C6 at a present handler with `lq_num = 8`. -/
theorem taic_publish_release_status_witness :
    (taic_ulq_write_cpuid ⟨true, 8⟩ 3 0).1 = 0 ∧
    (taic_ulq_write_cpuid ⟨true, 8⟩ 3 0).2.length = 1 ∧
    (taic_free_lq ⟨true, 8⟩ 3).1 = 0 ∧ (taic_free_lq ⟨true, 8⟩ 3).2.length = 1 :=
  (taic_publish_release_status ⟨true, 8⟩ 3 0).2.2.2 rfl

/-- C3: `uintr_set` on a disabled context leaves the `USIE` bit of both
`uie` and `uip` cleared, whatever the prior CSR values were, and performs
no hardware register write. -/
theorem uintr_set_disabled (t : ThreadStruct) (h : TaicHandler) (hartid : Nat)
    (regs : PtRegs) (c : Csrs) (hd : t.is_uintr_enabled = false) :
    (uintr_set t h hartid regs c).1.uie &&& IE_USIE = 0 ∧
    (uintr_set t h hartid regs c).1.uip &&& IE_USIE = 0 ∧
    hwWrites (uintr_set t h hartid regs c).2 = [] := by
  unfold uintr_set
  simp only [hd, Bool.not_false, if_pos]
  refine ⟨?_, ?_, ?_⟩
  · exact csr_clear_v_and_eq_zero _ _ (by unfold IE_USIE; norm_num)
  · exact csr_clear_v_and_eq_zero _ _ (by unfold IE_USIE; norm_num)
  · simp [hwWrites]

/-- Witness for C3 at a context that never enabled delivery but with both
bits set in the prior CSR state. -/
theorem uintr_set_disabled_witness :
    (uintr_set ⟨false, 0⟩ ⟨true, 8⟩ 1 ⟨0, 0, 0, 0, 0⟩ ⟨0, 1, 0, 0, 0, 1⟩).1.uie &&& IE_USIE = 0 ∧
    (uintr_set ⟨false, 0⟩ ⟨true, 8⟩ 1 ⟨0, 0, 0, 0, 0⟩ ⟨0, 1, 0, 0, 0, 1⟩).1.uip &&& IE_USIE = 0 ∧
    hwWrites (uintr_set ⟨false, 0⟩ ⟨true, 8⟩ 1 ⟨0, 0, 0, 0, 0⟩ ⟨0, 1, 0, 0, 0, 1⟩).2 = [] :=
  uintr_set_disabled ⟨false, 0⟩ ⟨true, 8⟩ 1 ⟨0, 0, 0, 0, 0⟩ ⟨0, 1, 0, 0, 0, 1⟩ rfl

/-- C10: `uintr_clear` on any enabled context (whether or not it was ever
resident in user mode) writes the all-ones sentinel to the bound slot's
ownership register; it leaves the thread state untouched, and a second
clear leaves the published owner unchanged at the sentinel: applying the
writes of two consecutive clears to any memory equals applying one. -/
theorem uintr_clear_sentinel_idempotent (t : ThreadStruct) (h : TaicHandler)
    (m : HwMem) (he : t.is_uintr_enabled = true) (hp : h.present = true) :
    (uintr_clear t h).2 = [(boundOffset h t, UINTR_SENTINEL)] ∧
    (uintr_clear t h).1 = t ∧
    applyWrites (applyWrites m (uintr_clear t h).2)
        (uintr_clear (uintr_clear t h).1 h).2 =
      applyWrites m (uintr_clear t h).2 := by
  unfold uintr_clear taic_ulq_write_cpuid boundOffset
  simp only [he, hp, Bool.not_true, Bool.false_eq_true, if_false]
  refine ⟨trivial, trivial, ?_⟩
  simp only [applyWrites]
  exact writeMem_idem m _ _

/-- Witness for C10 at an enabled context bound to queue 3 that was never
resident in user mode, on a core with a present handler. -/
theorem uintr_clear_sentinel_idempotent_witness :
    (uintr_clear ⟨true, 3⟩ ⟨true, 8⟩).2 =
      [(boundOffset ⟨true, 8⟩ ⟨true, 3⟩, UINTR_SENTINEL)] ∧
    (uintr_clear ⟨true, 3⟩ ⟨true, 8⟩).1 = (⟨true, 3⟩ : ThreadStruct) ∧
    applyWrites (applyWrites (fun _ => 0) (uintr_clear ⟨true, 3⟩ ⟨true, 8⟩).2)
        (uintr_clear (uintr_clear ⟨true, 3⟩ ⟨true, 8⟩).1 ⟨true, 8⟩).2 =
      applyWrites (fun _ => 0) (uintr_clear ⟨true, 3⟩ ⟨true, 8⟩).2 :=
  uintr_clear_sentinel_idempotent ⟨true, 3⟩ ⟨true, 8⟩ (fun _ => 0) rfl rfl

/-- C7: `uintr_set` on an enabled context with a present handler performs,
in order: the unconditional `sideleg` delegation-bit set first, then the
publish of the invoking core's id to the bound slot's ownership register,
then (after the publish) the restore of the saved enable mask `uie`, trap
program counter `uepc`, trap vector `utvec` and scratch `uscratch`, and
finally the write of `uip` as the bitwise or of the saved pending value and
the pending bits already latched in the processor; the resulting CSR state
holds exactly those values. -/
theorem uintr_set_armed (t : ThreadStruct) (h : TaicHandler) (hartid : Nat)
    (regs : PtRegs) (c : Csrs) (he : t.is_uintr_enabled = true)
    (hp : h.present = true) :
    (uintr_set t h hartid regs c).2 =
      [.csrSetBits .sideleg IE_USIE,
       .hwWrite (boundOffset h t) hartid,
       .csrWrite .uie regs.uie, .csrWrite .uepc regs.uepc,
       .csrWrite .utvec regs.utvec, .csrWrite .uscratch regs.uscratch,
       .csrWrite .uip (regs.uip ||| c.uip)] ∧
    (uintr_set t h hartid regs c).1 =
      { sideleg := c.sideleg ||| IE_USIE, uie := regs.uie, uepc := regs.uepc,
        utvec := regs.utvec, uscratch := regs.uscratch,
        uip := regs.uip ||| c.uip } := by
  unfold uintr_set taic_ulq_write_cpuid boundOffset csr_set_v
  simp [he, hp]

/-- Witness for C7: enabled context bound to queue 3, present handler with
capacity 8, core 2, distinct saved register values, a latched pending bit. -/
theorem uintr_set_armed_witness :
    (uintr_set ⟨true, 3⟩ ⟨true, 8⟩ 2 ⟨10, 11, 12, 13, 0⟩ ⟨0, 0, 0, 0, 0, 1⟩).2 =
      [.csrSetBits .sideleg IE_USIE,
       .hwWrite (boundOffset ⟨true, 8⟩ ⟨true, 3⟩) 2,
       .csrWrite .uie 10, .csrWrite .uepc 11,
       .csrWrite .utvec 12, .csrWrite .uscratch 13,
       .csrWrite .uip (0 ||| 1)] ∧
    (uintr_set ⟨true, 3⟩ ⟨true, 8⟩ 2 ⟨10, 11, 12, 13, 0⟩ ⟨0, 0, 0, 0, 0, 1⟩).1 =
      { sideleg := 0 ||| IE_USIE, uie := 10, uepc := 11, utvec := 12,
        uscratch := 13, uip := 0 ||| 1 } :=
  uintr_set_armed ⟨true, 3⟩ ⟨true, 8⟩ 2 ⟨10, 11, 12, 13, 0⟩ ⟨0, 0, 0, 0, 0, 1⟩ rfl rfl

/-- C8: registration returns 0 and keeps its allocation and mapping
whenever the allocation, resource lookup and mapping succeed and the node
declares at least one routing entry — for every list of entries, including
lists in which every entry is skipped. -/
theorem taic_init_success (instId : Nat) (inp : InitInput) (st : RegState)
    (ha : inp.allocOk = true) (hr : inp.resourceOk = true)
    (hi : inp.ioremapOk = true) (hn : inp.entries ≠ []) :
    (taic_init instId inp st).ret = 0 ∧
    (taic_init instId inp st).inst.isSome = true := by
  unfold taic_init
  simp [ha, hr, hi, hn]

/-- Witness for C8: a node whose single routing entry is unparsable (so it
is skipped and no handler slot is claimed) still registers with return 0
and a live instance. -/
theorem taic_init_success_witness :
    (taic_init 7 ⟨true, true, true, none, none, [⟨false, .usoft, true, true, 0⟩]⟩
        ⟨fun _ => ⟨false, 0⟩, fun _ => ⟨false, 0⟩, fun _ => false, fun _ => false, []⟩).ret = 0 ∧
    (taic_init 7 ⟨true, true, true, none, none, [⟨false, .usoft, true, true, 0⟩]⟩
        ⟨fun _ => ⟨false, 0⟩, fun _ => ⟨false, 0⟩, fun _ => false, fun _ => false, []⟩).inst.isSome = true :=
  taic_init_success 7 _ _ rfl rfl rfl (by simp)

/-- One loop iteration never changes an already-present user handler slot. -/
theorem handle_entry_uTable_present (inst i : Nat) (st : RegState) (e : IrqEntry)
    (c : Nat) (hp : (st.uTable c).present = true) :
    (taic_handle_entry inst st i e).uTable c = st.uTable c := by
  unfold taic_handle_entry
  by_cases h1 : e.parseOk = false
  · simp [h1]
  by_cases h2 : e.cause = Cause.other
  · simp [h1, h2]
  by_cases h3 : e.hartidOk = false
  · simp [h1, h2, h3]
  by_cases h4 : e.cpuValid = false
  · simp [h1, h2, h3, h4]
  simp only [h1, h2, h3, h4, if_false, if_neg]
  cases hc : e.cause with
  | other => exact absurd hc h2
  | ssoft => by_cases hpre : (st.sTable e.cpu).present = true <;> simp [hpre]
  | usoft =>
    by_cases hcpu : e.cpu = c
    · subst hcpu
      simp [hp]
    · by_cases hpre : (st.uTable e.cpu).present = true <;>
        simp [hpre, Ne.symm hcpu]

/-- One loop iteration never changes an already-present supervisor handler
slot. -/
theorem handle_entry_sTable_present (inst i : Nat) (st : RegState) (e : IrqEntry)
    (c : Nat) (hp : (st.sTable c).present = true) :
    (taic_handle_entry inst st i e).sTable c = st.sTable c := by
  unfold taic_handle_entry
  by_cases h1 : e.parseOk = false
  · simp [h1]
  by_cases h2 : e.cause = Cause.other
  · simp [h1, h2]
  by_cases h3 : e.hartidOk = false
  · simp [h1, h2, h3]
  by_cases h4 : e.cpuValid = false
  · simp [h1, h2, h3, h4]
  simp only [h1, h2, h3, h4, if_false, if_neg]
  cases hc : e.cause with
  | other => exact absurd hc h2
  | usoft => by_cases hpre : (st.uTable e.cpu).present = true <;> simp [hpre]
  | ssoft =>
    by_cases hcpu : e.cpu = c
    · subst hcpu
      simp [hp]
    · by_cases hpre : (st.sTable e.cpu).present = true <;>
        simp [hpre, Ne.symm hcpu]

/-- The whole loop never changes an already-present user handler slot. -/
theorem handle_entries_uTable_present (inst : Nat) (es : List IrqEntry) :
    ∀ (st : RegState) (i c : Nat), (st.uTable c).present = true →
      (taic_handle_entries inst st i es).uTable c = st.uTable c := by
  induction es with
  | nil => intro st i c _; rfl
  | cons e es ih =>
    intro st i c hp
    have h1 := handle_entry_uTable_present inst i st e c hp
    have h2 : ((taic_handle_entry inst st i e).uTable c).present = true := by
      rw [h1]; exact hp
    calc (taic_handle_entries inst (taic_handle_entry inst st i e) (i + 1) es).uTable c
        = (taic_handle_entry inst st i e).uTable c := ih _ _ _ h2
      _ = st.uTable c := h1

/-- The whole loop never changes an already-present supervisor handler
slot. -/
theorem handle_entries_sTable_present (inst : Nat) (es : List IrqEntry) :
    ∀ (st : RegState) (i c : Nat), (st.sTable c).present = true →
      (taic_handle_entries inst st i es).sTable c = st.sTable c := by
  induction es with
  | nil => intro st i c _; rfl
  | cons e es ih =>
    intro st i c hp
    have h1 := handle_entry_sTable_present inst i st e c hp
    have h2 : ((taic_handle_entry inst st i e).sTable c).present = true := by
      rw [h1]; exact hp
    calc (taic_handle_entries inst (taic_handle_entry inst st i e) (i + 1) es).sTable c
        = (taic_handle_entry inst st i e).sTable c := ih _ _ _ h2
      _ = st.sTable c := h1

/-- C5: at most one instance claims a (core, privilege-level) slot. An
already-present slot keeps its binding — present flag and instance
reference — through the whole registration loop (first two conjuncts, for
the user and supervisor tables); an entry that resolves to an
already-present user slot changes nothing but the instance's core mask and
the log, to which the conflict report is appended (third conjunct); an
entry that resolves to an already-present supervisor slot likewise only
sets the mask bit and appends the conflict report (fourth conjunct); and
the loop then continues with the remaining entries (fifth conjunct). -/
theorem taic_no_silent_overwrite (inst : Nat) (st : RegState)
    (es : List IrqEntry) (i0 c : Nat)
    (hpu : (st.uTable c).present = true) :
    (taic_handle_entries inst st i0 es).uTable c = st.uTable c ∧
    (∀ st' : RegState, (st'.sTable c).present = true →
      (taic_handle_entries inst st' i0 es).sTable c = st'.sTable c) ∧
    (∀ (i : Nat) (e : IrqEntry), e.parseOk = true → e.cause = Cause.usoft →
      e.hartidOk = true → e.cpuValid = true → e.cpu = c →
      taic_handle_entry inst st i e =
        { st with umask := fun x => if x = c then true else st.umask x,
                  log := st.log ++ [.conflict i] }) ∧
    (∀ (st' : RegState) (i : Nat) (e : IrqEntry),
      (st'.sTable c).present = true →
      e.parseOk = true → e.cause = Cause.ssoft →
      e.hartidOk = true → e.cpuValid = true → e.cpu = c →
      taic_handle_entry inst st' i e =
        { st' with smask := fun x => if x = c then true else st'.smask x,
                   log := st'.log ++ [.conflict i] }) ∧
    (∀ (i : Nat) (e : IrqEntry) (es' : List IrqEntry),
      taic_handle_entries inst st i (e :: es') =
        taic_handle_entries inst (taic_handle_entry inst st i e) (i + 1) es') := by
  refine ⟨handle_entries_uTable_present inst es st i0 c hpu,
          fun st' hps => handle_entries_sTable_present inst es st' i0 c hps,
          ?_, ?_, fun i e es' => rfl⟩
  · intro i e h1 h2 h3 h4 h5
    subst h5
    unfold taic_handle_entry
    simp [h1, h2, h3, h4, hpu]
  · intro st' i e hps h1 h2 h3 h4 h5
    subst h5
    unfold taic_handle_entry
    simp [h1, h2, h3, h4, hps]

/-- Witness for C5: a table in which core 2's user slot is bound to
instance 7; registering instance 9 with one conflicting entry leaves the
binding at `⟨true, 7⟩`. -/
theorem taic_no_silent_overwrite_witness :
    (taic_handle_entries 9
        ⟨fun x => if x = 2 then ⟨true, 7⟩ else ⟨false, 0⟩,
         fun _ => ⟨false, 0⟩, fun _ => false, fun _ => false, []⟩
        0 [⟨true, .usoft, true, true, 2⟩]).uTable 2 =
      (⟨fun x => if x = 2 then ⟨true, 7⟩ else ⟨false, 0⟩,
        fun _ => ⟨false, 0⟩, fun _ => false, fun _ => false, []⟩ : RegState).uTable 2 :=
  (taic_no_silent_overwrite 9
      ⟨fun x => if x = 2 then ⟨true, 7⟩ else ⟨false, 0⟩,
       fun _ => ⟨false, 0⟩, fun _ => false, fun _ => false, []⟩
      [⟨true, .usoft, true, true, 2⟩] 0 2 (by simp)).1

/-- Each machine step preserves the ownership invariant, provided the
invoking core's user handler slot is present. -/
theorem ownerInv_step (h : TaicHandler) (s s' : SysState) (hp : h.present = true)
    (hinv : OwnerInv h s) (hs : Step h s s') : OwnerInv h s' := by
  cases hs with
  | enable i hm =>
    by_cases ht : s.thread.is_uintr_enabled = true
    · have hid : stepEnable s i = s := by
        unfold stepEnable uintr_enable
        simp [ht]
      rw [hid]
      exact hinv
    · have ht' : s.thread.is_uintr_enabled = false := by
        simpa using ht
      unfold OwnerInv at hinv
      rw [ht'] at hinv
      simp only [Bool.false_eq_true, if_false] at hinv
      unfold OwnerInv
      simp only [stepEnable, uintr_enable, ht', Bool.false_eq_true, if_false, if_true]
      constructor
      · intro hu
        rw [hm] at hu
        cases hu
      · intro _
        exact hinv _
  | set hartid regs hm =>
    by_cases ht : s.thread.is_uintr_enabled = true
    · have hw : hwWrites (uintr_set s.thread h hartid regs s.csrs).2 =
          [(boundOffset h s.thread, hartid)] := by
        unfold uintr_set taic_ulq_write_cpuid boundOffset
        simp [ht, hp, hwWrites]
      unfold OwnerInv
      simp [stepSet, hw, ht, applyWrites, writeMem]
    · have ht' : s.thread.is_uintr_enabled = false := by
        simpa using ht
      have hw : hwWrites (uintr_set s.thread h hartid regs s.csrs).2 = [] := by
        unfold uintr_set
        simp [ht', hwWrites]
      unfold OwnerInv at hinv
      rw [ht'] at hinv
      simp only [Bool.false_eq_true, if_false] at hinv
      unfold OwnerInv
      simp only [stepSet, hw, applyWrites, ht', Bool.false_eq_true, if_false]
      exact hinv
  | clear hm =>
    by_cases ht : s.thread.is_uintr_enabled = true
    · have hw : (uintr_clear s.thread h).2 =
          [(boundOffset h s.thread, UINTR_SENTINEL)] := by
        unfold uintr_clear taic_ulq_write_cpuid boundOffset
        simp [ht, hp]
      unfold OwnerInv
      simp [stepClear, hw, ht, applyWrites, writeMem]
    · have ht' : s.thread.is_uintr_enabled = false := by
        simpa using ht
      have hw : (uintr_clear s.thread h).2 = [] := by
        unfold uintr_clear
        simp [ht']
      unfold OwnerInv at hinv
      rw [ht'] at hinv
      simp only [Bool.false_eq_true, if_false] at hinv
      unfold OwnerInv
      simp only [stepClear, hw, applyWrites, ht', Bool.false_eq_true, if_false]
      exact hinv

/-- Every reachable state satisfies the ownership invariant. -/
theorem ownerInv_reachable (h : TaicHandler) (c : Csrs) (s : SysState)
    (hp : h.present = true) (hr : Reachable h c s) : OwnerInv h s := by
  unfold Reachable at hr
  induction hr with
  | refl =>
    unfold OwnerInv initState
    simp
  | tail hab hbc ih => exact ownerInv_step h _ _ hp ih hbc

/-- C1: in every state reachable by `enable` / `set` / `clear` sequences on
a core whose user handler slot is present, a receiver-enabled context's
bound slot holds the identifier of the core currently executing the context
whenever the context is resident in user mode, and the all-ones "nowhere"
sentinel at all other times. -/
theorem uintr_owner_invariant (h : TaicHandler) (c : Csrs) (s : SysState)
    (hp : h.present = true) (hr : Reachable h c s)
    (he : s.thread.is_uintr_enabled = true) :
    (s.mode = Mode.user → s.mem (boundOffset h s.thread) = s.hart) ∧
    (s.mode ≠ Mode.user → s.mem (boundOffset h s.thread) = UINTR_SENTINEL) := by
  have hinv := ownerInv_reachable h c s hp hr
  unfold OwnerInv at hinv
  rw [he] at hinv
  simp only [if_true] at hinv
  refine ⟨hinv.1, fun hne => ?_⟩
  cases hmode : s.mode with
  | user => exact absurd hmode hne
  | kern => exact hinv.2 hmode

/-- The concrete state used to witness C1: `enable 3` then trap exit on
core 0, with a present handler of capacity 8. -/
def witnessState : SysState :=
  stepSet ⟨true, 8⟩ (stepEnable (initState ⟨0, 0, 0, 0, 0, 0⟩) 3) 0 ⟨0, 0, 0, 0, 0⟩

/-- Witness for C1: after `enable 3; set` on core 0 the published owner of
queue 3 equals the executing core. -/
theorem uintr_owner_invariant_witness :
    witnessState.mem (boundOffset ⟨true, 8⟩ witnessState.thread) = witnessState.hart :=
  (uintr_owner_invariant ⟨true, 8⟩ ⟨0, 0, 0, 0, 0, 0⟩ witnessState rfl
    (Relation.ReflTransGen.tail
      (Relation.ReflTransGen.tail Relation.ReflTransGen.refl
        (Step.enable (initState ⟨0, 0, 0, 0, 0, 0⟩) 3 rfl))
      (Step.set (stepEnable (initState ⟨0, 0, 0, 0, 0, 0⟩) 3) 0 ⟨0, 0, 0, 0, 0⟩ rfl))
    rfl).1 rfl

end Taic
